import Mathlib

/-!
Shallow embedding of the gap-detection, explainable-window tagging, and scoring
engine of `minute_data_analyzer` (`sections.py` + `fx_holidays.py`).

Timestamps are modelled as integer seconds since the Unix epoch (UTC); pandas
timestamps in the source carry whole seconds for this data.  Python floats are
modelled as exact rationals (`ℚ`).  Python `//` and `%` are floor division and
floor modulus, modelled by `Int.fdiv` / `Int.emod`.
-/

namespace MDA

/-- Timeframe identifier, `tf ∈ {"M1","M5","H1"}` in the source. -/
inductive TF | M1 | M5 | H1
deriving DecidableEq, Repr

/-- Nominal bar spacing in seconds: `{"M1": 60, "M5": 300, "H1": 3600}[tf]`
(`sections.py`, `_bar_gaps`). -/
def nominalSec : TF → ℤ
  | .M1 => 60
  | .M5 => 300
  | .H1 => 3600

/- ===== Civil-calendar arithmetic (models Python `datetime`/`date`) ===== -/

/-- Days from civil date to epoch day count (1970-01-01 = day 0), the standard
Gregorian-calendar conversion; models `datetime.date` arithmetic. -/
def daysFromCivil (y m d : ℤ) : ℤ :=
  let y' := y - (if m ≤ 2 then 1 else 0)
  let era := Int.fdiv y' 400
  let yoe := y' - era * 400
  let doy := Int.fdiv (153 * (m + (if 2 < m then -3 else 9)) + 2) 5 + d - 1
  let doe := yoe * 365 + Int.fdiv yoe 4 - Int.fdiv yoe 100 + doy
  era * 146097 + doe - 719468

/-- Epoch day count back to civil `(year, month, day)`; inverse of
`daysFromCivil`, models `pandas .dt.year` etc. -/
def civilFromDays (z : ℤ) : ℤ × ℤ × ℤ :=
  let z' := z + 719468
  let era := Int.fdiv z' 146097
  let doe := z' - era * 146097
  let yoe := Int.fdiv (doe - Int.fdiv doe 1460 + Int.fdiv doe 36524 - Int.fdiv doe 146096) 365
  let y := yoe + era * 400
  let doy := doe - (365 * yoe + Int.fdiv yoe 4 - Int.fdiv yoe 100)
  let mp := Int.fdiv (5 * doy + 2) 153
  let d := doy - Int.fdiv (153 * mp + 2) 5 + 1
  let m := mp + (if mp < 10 then 3 else -9)
  (y + (if m ≤ 2 then 1 else 0), m, d)

/-- Calendar year of an epoch-seconds timestamp (`.dt.year`). -/
def yearOfSec (s : ℤ) : ℤ := (civilFromDays (Int.fdiv s 86400)).1

/-- Hour-of-day of an epoch-seconds timestamp (`.dt.hour` / `.hour`). -/
def hourOfSec (s : ℤ) : ℤ := Int.fdiv (Int.emod s 86400) 3600

/-- Minute-of-hour of an epoch-seconds timestamp (`.minute`). -/
def minuteOfSec (s : ℤ) : ℤ := Int.fdiv (Int.emod s 3600) 60

/-- Python `date.weekday()` (Monday = 0) of an epoch day number;
1970-01-01 was a Thursday (= 3). -/
def weekdayOfDay (d : ℤ) : ℤ := Int.emod (d + 3) 7

/-- Python weekday of an epoch-seconds timestamp. -/
def weekdayOfSec (s : ℤ) : ℤ := weekdayOfDay (Int.fdiv s 86400)

/- ===== fx_holidays.py ===== -/

/-- `_easter_date` (`fx_holidays.py` lines 11-27): anonymous Gregorian
(Meeus/Jones/Butcher) algorithm; returns `(month, day)` of Easter Sunday. -/
def easterMonthDay (year : ℤ) : ℤ × ℤ :=
  let a := Int.emod year 19
  let b := Int.fdiv year 100
  let c := Int.emod year 100
  let d := Int.fdiv b 4
  let e := Int.emod b 4
  let f := Int.fdiv (b + 8) 25
  let g := Int.fdiv (b - f + 1) 3
  let h := Int.emod (19 * a + b - d - g + 15) 30
  let i := Int.fdiv c 4
  let k := Int.emod c 4
  let l := Int.emod (32 + 2 * e + 2 * i - h - k) 7
  let m := Int.fdiv (a + 11 * h + 22 * l) 451
  let month := Int.fdiv (h + l - 7 * m + 114) 31
  let day := Int.emod (h + l - 7 * m + 114) 31 + 1
  (month, day)

/-- Easter Sunday as an epoch day number. -/
def easterEpochDay (year : ℤ) : ℤ :=
  daysFromCivil year (easterMonthDay year).1 (easterMonthDay year).2

/-- `_full_day_utc`: the full UTC calendar day `[00:00, 24:00)` of an epoch
day, as an epoch-seconds interval. -/
def fullDayUTC (day : ℤ) : ℤ × ℤ := (86400 * day, 86400 * (day + 1))

/-- `fx_holiday_windows` (`fx_holidays.py` lines 69-115), window-building part
(lines 96-115).  The regex scan of the YAML config (lines 74-95) is modelled as
the already-extracted policy values `mode`, `includeCfg`, `extended`; the extra
closures parsed by `_parse_extra_windows` enter as the pre-parsed list
`extra`. -/
def fxHolidayWindows (year : ℤ) (mode : String) (includeCfg : List String)
    (extended : Bool) (extra : List (ℤ × ℤ)) : List (ℤ × ℤ) :=
  let inc : List String :=
    if includeCfg.isEmpty then
      if mode = "extended" ∨ extended = true then
        ["christmas", "new_year", "good_friday", "boxing_day", "easter_monday"]
      else
        ["christmas", "new_year", "good_friday"]
    else includeCfg
  let easter := easterEpochDay year
  (if "good_friday" ∈ inc then [fullDayUTC (easter - 2)] else []) ++
  (if "easter_monday" ∈ inc then [fullDayUTC (easter + 1)] else []) ++
  (if "new_year" ∈ inc then [fullDayUTC (daysFromCivil year 1 1)] else []) ++
  (if "christmas" ∈ inc then [fullDayUTC (daysFromCivil year 12 25)] else []) ++
  (if "boxing_day" ∈ inc then [fullDayUTC (daysFromCivil year 12 26)] else []) ++
  extra

/- ===== Gap extractor (`sections.py`, `_bar_gaps`, lines 184-194) ===== -/

/-- A detected gap: consecutive bar timestamps and their difference in seconds
(columns `gap_start`, `gap_end`, `delta_sec`). -/
structure Gap where
  gapStart : ℤ
  gapEnd : ℤ
  deltaSec : ℤ
deriving DecidableEq, Repr

/-- Helper for `barGaps`: walks the bar timestamps keeping the previous one,
emitting a gap whenever the difference strictly exceeds `expect` (the source
selects indices with `dsec > expect`; the first bar's `diff` is filled with
`expect` itself, so it is never selected). -/
def barGapsAux (expect : ℤ) : ℤ → List ℤ → List Gap
  | _, [] => []
  | p, t :: rest =>
    if expect < t - p then ⟨p, t, t - p⟩ :: barGapsAux expect t rest
    else barGapsAux expect t rest

/-- `_bar_gaps`: gaps of a bar-timestamp series for a timeframe; empty input
gives an empty gap list. -/
def barGaps (tf : TF) : List ℤ → List Gap
  | [] => []
  | t :: rest => barGapsAux (nominalSec tf) t rest

lemma mem_barGapsAux_iff (expect p : ℤ) (l : List ℤ) (g : Gap) :
    g ∈ barGapsAux expect p l ↔
      ∃ i : ℕ, i + 1 < (p :: l).length ∧
        expect < (p :: l).getD (i + 1) 0 - (p :: l).getD i 0 ∧
        g = ⟨(p :: l).getD i 0, (p :: l).getD (i + 1) 0,
             (p :: l).getD (i + 1) 0 - (p :: l).getD i 0⟩ := by
  induction l generalizing p with
  | nil =>
    simp only [barGapsAux, List.not_mem_nil, false_iff]
    rintro ⟨i, hi, -, -⟩
    simp at hi
  | cons t rest ih =>
    constructor
    · intro hg
      by_cases hlt : expect < t - p
      · simp only [barGapsAux, if_pos hlt, List.mem_cons] at hg
        rcases hg with rfl | hg
        · exact ⟨0, by simp, by simpa using hlt, by simp⟩
        · obtain ⟨i, hi, hd, he⟩ := (ih t).mp hg
          exact ⟨i + 1, by simpa using hi, by simpa using hd, by simpa using he⟩
      · simp only [barGapsAux, if_neg hlt] at hg
        obtain ⟨i, hi, hd, he⟩ := (ih t).mp hg
        exact ⟨i + 1, by simpa using hi, by simpa using hd, by simpa using he⟩
    · rintro ⟨i, hi, hd, he⟩
      match i with
      | 0 =>
        simp only [List.getD_cons_succ, List.getD_cons_zero] at hd he
        simp only [barGapsAux, if_pos hd]
        simp [he]
      | i + 1 =>
        simp only [List.getD_cons_succ] at hd he
        have hmem : g ∈ barGapsAux expect t rest :=
          (ih t).mpr ⟨i, by simpa using hi, hd, he⟩
        unfold barGapsAux
        split <;> simp [hmem]

/-- C1: the gap extractor's nominal spacings are 60/300/3600 s for M1/M5/H1;
an empty series and a single bar produce no gaps; and a gap record for an
adjacent bar pair is emitted exactly when the timestamp difference strictly
exceeds the nominal spacing. -/
theorem c1_gap_extractor :
    (nominalSec .M1 = 60 ∧ nominalSec .M5 = 300 ∧ nominalSec .H1 = 3600) ∧
    (∀ tf : TF, barGaps tf [] = []) ∧
    (∀ (tf : TF) (t : ℤ), barGaps tf [t] = []) ∧
    (∀ (tf : TF) (ts : List ℤ) (g : Gap),
      g ∈ barGaps tf ts ↔
        ∃ i : ℕ, i + 1 < ts.length ∧
          nominalSec tf < ts.getD (i + 1) 0 - ts.getD i 0 ∧
          g = ⟨ts.getD i 0, ts.getD (i + 1) 0,
               ts.getD (i + 1) 0 - ts.getD i 0⟩) := by
  refine ⟨⟨rfl, rfl, rfl⟩, fun _ => rfl, fun _ _ => rfl, fun tf ts g => ?_⟩
  match ts with
  | [] =>
    simp only [barGaps, List.not_mem_nil, false_iff]
    rintro ⟨i, hi, -, -⟩
    simp at hi
  | t :: rest => exact mem_barGapsAux_iff (nominalSec tf) t rest g

/- ===== Weekly closed windows (`sections.py` lines 204-256) ===== -/

/-- Python `\s` on the config tokens (ASCII whitespace). -/
def isPySpace (c : Char) : Bool :=
  c = ' ' || c = '\t' || c = '\n' || c = '\r' || c = '\x0b' || c = '\x0c'

/-- Python `str.strip()` on a character list. -/
def trimChars (cs : List Char) : List Char :=
  ((cs.dropWhile isPySpace).reverse.dropWhile isPySpace).reverse

/-- Digit value of an ASCII digit character. -/
def digitVal (c : Char) : ℤ := (c.toNat : ℤ) - 48

/-- The regex class `\d` on the ASCII config tokens. -/
def isAsciiDigit (c : Char) : Bool := 48 ≤ c.toNat && c.toNat ≤ 57

/-- Weekday-name lookup `dmap` of `_parse_wd_hhmm`
(`{"Mon":0,...,"Sun":6}`). -/
def wdIdx (a b c : Char) : Option ℤ :=
  if a = 'M' ∧ b = 'o' ∧ c = 'n' then some 0
  else if a = 'T' ∧ b = 'u' ∧ c = 'e' then some 1
  else if a = 'W' ∧ b = 'e' ∧ c = 'd' then some 2
  else if a = 'T' ∧ b = 'h' ∧ c = 'u' then some 3
  else if a = 'F' ∧ b = 'r' ∧ c = 'i' then some 4
  else if a = 'S' ∧ b = 'a' ∧ c = 't' then some 5
  else if a = 'S' ∧ b = 'u' ∧ c = 'n' then some 6
  else none

/-- The `(\d{1,2}):(\d{2})$` part of `_parse_wd_hhmm`'s regex: one or two
digits, a colon, exactly two digits, end of token; result `hh*60+mm`.  Note
the source does not range-check the digits (e.g. `99:99` parses). -/
def parseHhmm : List Char → Option ℤ
  | [a, b, c, d] =>
    if isAsciiDigit a ∧ b = ':' ∧ isAsciiDigit c ∧ isAsciiDigit d then
      some (digitVal a * 60 + (digitVal c * 10 + digitVal d))
    else none
  | [a, b, c, d, e] =>
    if isAsciiDigit a ∧ isAsciiDigit b ∧ c = ':' ∧ isAsciiDigit d ∧ isAsciiDigit e then
      some ((digitVal a * 10 + digitVal b) * 60 + (digitVal d * 10 + digitVal e))
    else none
  | _ => none

/-- `_parse_wd_hhmm` (`sections.py` lines 234-240): strip the token, then
match `^(Mon|Tue|Wed|Thu|Fri|Sat|Sun)\s+(\d{1,2}):(\d{2})$`; result is
`(weekday, hh*60+mm)` or `none`. -/
def parseWdHhmm (token : String) : Option (ℤ × ℤ) :=
  match trimChars token.data with
  | c1 :: c2 :: c3 :: rest =>
    match wdIdx c1 c2 c3 with
    | none => none
    | some wd =>
      if (rest.takeWhile isPySpace).isEmpty then none
      else
        match parseHhmm (rest.dropWhile isPySpace) with
        | none => none
        | some mins => some (wd, mins)
  | _ => none

/-- Loop body of `_weekly_windows_for_year`: starting from midnight `t`,
while `t < stop` emit the window anchored at the Monday of `t`'s week and
advance by 7 days.  The `fuel` argument strictly exceeds the number of loop
iterations at every call site, so this models the `while` loop exactly. -/
def weeklyAux (st en : ℤ × ℤ) (stop : ℤ) : ℕ → ℤ → List (ℤ × ℤ)
  | 0, _ => []
  | fuel + 1, t =>
    if t < stop then
      let weekStart := t - 86400 * weekdayOfDay (Int.fdiv t 86400)
      let ws := weekStart + 86400 * st.1 + 60 * st.2
      let we := weekStart + 86400 * en.1 + 60 * en.2
      (ws, if we ≤ ws then we + 604800 else we) ::
        weeklyAux st en stop fuel (t + 604800)
    else []

/-- `_weekly_windows_for_year` (`sections.py` lines 242-256): parse the two
boundary tokens (returning `[]` when either fails), then sweep weekly from
Dec 25 of the prior year to Jan 5 of the following year. -/
def weeklyWindowsForYear (year : ℤ) (startTok endTok : String) : List (ℤ × ℤ) :=
  match parseWdHhmm startTok, parseWdHhmm endTok with
  | some st, some en =>
    let t0 := 86400 * daysFromCivil (year - 1) 12 25
    let stop := 86400 * daysFromCivil (year + 1) 1 5
    weeklyAux st en stop ((stop - t0).toNat / 604800 + 1) t0
  | _, _ => []

/-- Python `val.split('->')` on a character list. -/
def splitOnArrow : List Char → List (List Char)
  | [] => [[]]
  | '-' :: '>' :: rest => [] :: splitOnArrow rest
  | c :: rest =>
    match splitOnArrow rest with
    | [] => [[c]]
    | p :: ps => (c :: p) :: ps

/-- Weekly-window token selection of `_parse_ignore_cfg` (`sections.py`
lines 206-215): `cfgVal` is the quoted value captured from a
`weekly_window_utc: "..."` line when present (`none` when the line is absent
or unquoted).  The value is stripped and split on `->`; only when that gives
exactly two nonempty parts do they replace the defaults
`("Fri 22:00", "Sun 22:00")`. -/
def weeklyTokens : Option String → String × String
  | none => ("Fri 22:00", "Sun 22:00")
  | some val =>
    match (splitOnArrow (trimChars val.data)).map trimChars with
    | [a, b] =>
      if a ≠ [] ∧ b ≠ [] then (⟨a⟩, ⟨b⟩) else ("Fri 22:00", "Sun 22:00")
    | _ => ("Fri 22:00", "Sun 22:00")

/- ===== Window tagger (`sections.py` lines 198-273 and 414-422) ===== -/

/-- Gap reason tag: `'weekend/closed-hours'` or `'holiday'` in the source. -/
inductive Reason | weekend | holiday
deriving DecidableEq, Repr

/-- A gap with its (optional) reason tag. -/
structure TGap where
  gapStart : ℤ
  gapEnd : ℤ
  deltaSec : ℤ
  reason : Option Reason
deriving DecidableEq, Repr

/-- `_overlaps_any` (`sections.py` lines 198-202): open-interval overlap test
`s < window_end ∧ window_start < e` against any window. -/
def overlapsAny (s e : ℤ) (wins : List (ℤ × ℤ)) : Bool :=
  wins.any fun w => decide (s < w.2) && decide (w.1 < e)

/-- Insert into an ascending list (ascending insertion sort step). -/
def insertAsc (x : ℤ) : List ℤ → List ℤ
  | [] => [x]
  | y :: ys => if x ≤ y then x :: y :: ys else y :: insertAsc x ys

/-- Ascending sort of an integer list (models Python `sorted`). -/
def sortAsc (l : List ℤ) : List ℤ := l.foldr insertAsc []

/-- `sorted(set(bar_gaps['gap_start'].dt.year))` of `_tag_explainable`. -/
def gapYears (gaps : List Gap) : List ℤ :=
  sortAsc (gaps.map fun g => yearOfSec g.gapStart).dedup

/-- The weekly windows `_tag_explainable` builds: one batch per year touched
by any gap start. -/
def weeklyWinsOfGaps (startTok endTok : String) (gaps : List Gap) :
    List (ℤ × ℤ) :=
  (gapYears gaps).flatMap fun y => weeklyWindowsForYear y startTok endTok

/-- `_tag_explainable` (`sections.py` lines 258-273): the weekly pass; each
gap gets `reason = 'weekend/closed-hours'` when it overlaps any weekly window,
`None` otherwise. -/
def tagExplainable (startTok endTok : String) (gaps : List Gap) : List TGap :=
  let wins := weeklyWinsOfGaps startTok endTok gaps
  gaps.map fun g =>
    ⟨g.gapStart, g.gapEnd, g.deltaSec,
     if overlapsAny g.gapStart g.gapEnd wins then some .weekend else none⟩

/-- Holiday pass of `build_common_blocks` (`sections.py` lines 415-421):
if the holiday window list is nonempty, gaps whose reason is still `None`
and which overlap some window get `reason = 'holiday'`. -/
def holidayPass (wins : List (ℤ × ℤ)) (tagged : List TGap) : List TGap :=
  if wins.isEmpty then tagged
  else tagged.map fun g =>
    if g.reason.isNone && overlapsAny g.gapStart g.gapEnd wins then
      { g with reason := some Reason.holiday }
    else g

/-- Tagging pipeline of `build_common_blocks` (`sections.py` lines 414-421):
the weekly pass followed by the holiday pass, the latter with the holiday
windows of the single report-year argument `year`. -/
def buildTagged (year : ℤ) (startTok endTok : String) (mode : String)
    (includeCfg : List String) (extended : Bool) (extra : List (ℤ × ℤ))
    (gaps : List Gap) : List TGap :=
  holidayPass (fxHolidayWindows year mode includeCfg extended extra)
    (tagExplainable startTok endTok gaps)

/- ===== Theorems for claims C7 and C10 ===== -/

lemma digitVal_nonneg {c : Char} (h : isAsciiDigit c = true) : 0 ≤ digitVal c := by
  simp only [isAsciiDigit, Bool.and_eq_true, decide_eq_true_eq] at h
  unfold digitVal
  omega

lemma wdIdx_bounds {a b c : Char} {w : ℤ} (h : wdIdx a b c = some w) :
    0 ≤ w ∧ w ≤ 6 := by
  unfold wdIdx at h
  split_ifs at h <;> (injection h with h; omega)

lemma parseHhmm_nonneg {cs : List Char} {m : ℤ} (h : parseHhmm cs = some m) :
    0 ≤ m := by
  unfold parseHhmm at h
  split at h
  · rename_i a b c d
    split_ifs at h with hc
    obtain ⟨h1, -, h3, h4⟩ := hc
    injection h with h
    have := digitVal_nonneg h1
    have := digitVal_nonneg h3
    have := digitVal_nonneg h4
    omega
  · rename_i a b c d e
    split_ifs at h with hc
    obtain ⟨h1, h2, -, h4, h5⟩ := hc
    injection h with h
    have := digitVal_nonneg h1
    have := digitVal_nonneg h2
    have := digitVal_nonneg h4
    have := digitVal_nonneg h5
    omega
  · exact absurd h (by simp)

lemma parseWdHhmm_inv {tok : String} {wd m : ℤ}
    (h : parseWdHhmm tok = some (wd, m)) : 0 ≤ wd ∧ wd ≤ 6 ∧ 0 ≤ m := by
  unfold parseWdHhmm at h
  split at h
  · rename_i c1 c2 c3 rest
    split at h
    · exact absurd h (by simp)
    · rename_i w hw
      split_ifs at h
      split at h
      · exact absurd h (by simp)
      · rename_i mins hmins
        injection h with h
        injection h with h1 h2
        subst h1
        subst h2
        have hb := wdIdx_bounds hw
        have hm := parseHhmm_nonneg hmins
        exact ⟨hb.1, hb.2, hm⟩
  · exact absurd h (by simp)

lemma weeklyAux_mem {st en : ℤ × ℤ} {stop : ℤ} :
    ∀ {fuel : ℕ} {t : ℤ} {w : ℤ × ℤ}, w ∈ weeklyAux st en stop fuel t →
      ∃ wkst : ℤ,
        w.1 = wkst + 86400 * st.1 + 60 * st.2 ∧
        w.2 = if wkst + 86400 * en.1 + 60 * en.2 ≤ wkst + 86400 * st.1 + 60 * st.2
              then wkst + 86400 * en.1 + 60 * en.2 + 604800
              else wkst + 86400 * en.1 + 60 * en.2 := by
  intro fuel
  induction fuel with
  | zero => intro t w h; simp [weeklyAux] at h
  | succ fuel ih =>
    intro t w h
    unfold weeklyAux at h
    by_cases hts : t < stop
    · rw [if_pos hts] at h
      rcases List.mem_cons.mp h with rfl | h'
      · exact ⟨t - 86400 * weekdayOfDay (Int.fdiv t 86400), rfl, rfl⟩
      · exact ih h'
    · rw [if_neg hts] at h
      simp at h

/-- C10 as stated is false: the `HH:MM` part of a boundary token is not
range-checked (`\d{1,2}:\d{2}` admits `99:99`), so the token `"Sun 99:99"`
parses, its within-week offset exceeds 7 days, and every window generated for
2024 from `"Sun 99:99" -> "Mon 00:00"` has its end at or before its start. -/
theorem c10_counterexample :
    parseWdHhmm "Sun 99:99" = some (6, 6039) ∧
    weeklyWindowsForYear 2024 "Sun 99:99" "Mon 00:00" ≠ [] ∧
    ((weeklyWindowsForYear 2024 "Sun 99:99" "Mon 00:00").all
      fun w => decide (w.2 ≤ w.1)) = true := by
  refine ⟨by decide, by decide, by decide⟩

/-- C10 amended: for parseable boundary tokens whose minute values denote a
valid time of day (strictly less than 24:00), every generated weekly window
has positive length of at most 7 days, and its length is the raw
end-minus-start offset, advanced by exactly 7 days exactly when the raw end
does not fall strictly after the raw start within the week. -/
theorem c10_weekly_window_positive (year : ℤ) (stTok enTok : String)
    (wd1 m1 wd2 m2 : ℤ)
    (hst : parseWdHhmm stTok = some (wd1, m1))
    (hen : parseWdHhmm enTok = some (wd2, m2))
    (hm1 : m1 < 1440) (hm2 : m2 < 1440) :
    ∀ w ∈ weeklyWindowsForYear year stTok enTok,
      0 < w.2 - w.1 ∧ w.2 - w.1 ≤ 604800 ∧
      ((86400 * wd1 + 60 * m1 < 86400 * wd2 + 60 * m2 ∧
          w.2 - w.1 = 86400 * wd2 + 60 * m2 - (86400 * wd1 + 60 * m1)) ∨
       (86400 * wd2 + 60 * m2 ≤ 86400 * wd1 + 60 * m1 ∧
          w.2 - w.1 = 86400 * wd2 + 60 * m2 - (86400 * wd1 + 60 * m1) + 604800)) := by
  obtain ⟨hwd1l, hwd1u, hm1l⟩ := parseWdHhmm_inv hst
  obtain ⟨hwd2l, hwd2u, hm2l⟩ := parseWdHhmm_inv hen
  intro w hw
  unfold weeklyWindowsForYear at hw
  rw [hst, hen] at hw
  obtain ⟨wkst, h1, h2⟩ := weeklyAux_mem hw
  simp only at h1 h2
  by_cases hc : wkst + 86400 * wd2 + 60 * m2 ≤ wkst + 86400 * wd1 + 60 * m1
  · rw [if_pos (by omega)] at h2
    refine ⟨by omega, by omega, Or.inr ⟨by omega, by omega⟩⟩
  · rw [if_neg (by omega)] at h2
    refine ⟨by omega, by omega, Or.inl ⟨by omega, by omega⟩⟩

/-- Witness for `c10_weekly_window_positive`: the default tokens for 2024,
checked on the first generated window `(1703887200, 1704060000)`. -/
theorem c10_weekly_window_positive_witness :
    0 < (1704060000 : ℤ) - 1703887200 ∧ (1704060000 : ℤ) - 1703887200 ≤ 604800 := by
  have h := c10_weekly_window_positive 2024 "Fri 22:00" "Sun 22:00" 4 1320 6 1320
    (by decide) (by decide) (by decide) (by decide)
    ((1703887200 : ℤ), (1704060000 : ℤ)) (by decide)
  exact ⟨h.1, h.2.1⟩

/-- C7 as stated is false: a `weekly_window_utc` value with the `A -> B`
shape whose boundary token fails `<Weekday> HH:MM` parsing (here the full
weekday name `"Friday"`) is NOT replaced by the default window; instead the
malformed tokens are kept, the weekly-window list comes out empty, and a
Saturday gap the default window would tag stays untagged. -/
theorem c7_counterexample :
    weeklyTokens (some "Friday 22:00 -> Sun 22:00") =
      ("Friday 22:00", "Sun 22:00") ∧
    parseWdHhmm "Friday 22:00" = none ∧
    weeklyWindowsForYear 2024 "Friday 22:00" "Sun 22:00" = [] ∧
    weeklyWindowsForYear 2024 "Fri 22:00" "Sun 22:00" ≠ [] ∧
    (tagExplainable "Friday 22:00" "Sun 22:00"
        [⟨1734775200, 1734786000, 10800⟩]).map (fun g => g.reason) = [none] ∧
    (tagExplainable "Fri 22:00" "Sun 22:00"
        [⟨1734775200, 1734786000, 10800⟩]).map (fun g => g.reason) =
      [some Reason.weekend] := by
  refine ⟨by decide, by decide, by decide, by decide, by decide, by decide⟩

/-- C7 amended: the default `Fri 22:00 -> Sun 22:00` tokens are used when the
config value is absent, does not split into exactly two `->`-parts, or has an
empty part; but when both parts are present yet a boundary token fails
`<Weekday> HH:MM` parsing, the year's weekly-window list is empty (weekly
weekend tagging is disabled rather than defaulted); in no case does the run
abort. -/
theorem c7_weekly_token_fallback :
    weeklyTokens none = ("Fri 22:00", "Sun 22:00") ∧
    (∀ val : String,
      ((splitOnArrow (trimChars val.data)).map trimChars).length ≠ 2 →
      weeklyTokens (some val) = ("Fri 22:00", "Sun 22:00")) ∧
    (∀ (val : String) (a b : List Char),
      (splitOnArrow (trimChars val.data)).map trimChars = [a, b] →
      a = [] ∨ b = [] →
      weeklyTokens (some val) = ("Fri 22:00", "Sun 22:00")) ∧
    (∀ (year : ℤ) (a b : String),
      parseWdHhmm a = none ∨ parseWdHhmm b = none →
      weeklyWindowsForYear year a b = []) := by
  refine ⟨rfl, ?_, ?_, ?_⟩
  · intro val hlen
    rcases hsp : (splitOnArrow (trimChars val.data)).map trimChars with _ | ⟨a, tail⟩
    · simp [weeklyTokens, hsp]
    · rcases tail with _ | ⟨b, tail2⟩
      · simp [weeklyTokens, hsp]
      · rcases tail2 with _ | ⟨c, tail3⟩
        · exact absurd (by rw [hsp]; rfl) hlen
        · simp [weeklyTokens, hsp]
  · intro val a b hab hempty
    have hred : weeklyTokens (some val) =
        if a ≠ [] ∧ b ≠ [] then ((⟨a⟩ : String), (⟨b⟩ : String))
        else ("Fri 22:00", "Sun 22:00") := by
      simp only [weeklyTokens]
      rw [hab]
    rw [hred, if_neg]
    rintro ⟨ha, hb⟩
    rcases hempty with h | h
    · exact ha h
    · exact hb h
  · intro year a b h
    rcases h with h | h
    · simp [weeklyWindowsForYear, h]
    · rcases hpa : parseWdHhmm a with _ | st <;>
        simp [weeklyWindowsForYear, hpa, h]

/-- Witness for `c7_weekly_token_fallback` at concrete malformed inputs. -/
theorem c7_weekly_token_fallback_witness :
    weeklyTokens (some "a -> b -> c") = ("Fri 22:00", "Sun 22:00") ∧
    weeklyTokens (some "-> Sun 22:00") = ("Fri 22:00", "Sun 22:00") ∧
    weeklyWindowsForYear 2024 "Friday 22:00" "Sun 22:00" = [] := by
  refine ⟨c7_weekly_token_fallback.2.1 "a -> b -> c" (by decide),
    c7_weekly_token_fallback.2.2.1 "-> Sun 22:00" [] ("Sun 22:00".data)
      (by decide) (Or.inl rfl),
    c7_weekly_token_fallback.2.2.2 2024 "Friday 22:00" "Sun 22:00"
      (Or.inl (by decide))⟩

/- ===== Theorems for claims C2 and C3 ===== -/

lemma holidayPass_keeps_tagged (hwins : List (ℤ × ℤ)) (tagged : List TGap)
    (i : ℕ) (tg : TGap) (hi : tagged[i]? = some tg) (hr : tg.reason ≠ none) :
    (holidayPass hwins tagged)[i]? = some tg := by
  unfold holidayPass
  by_cases he : hwins.isEmpty
  · rw [if_pos he]; exact hi
  · rw [if_neg he, List.getElem?_map, hi]
    have hnone : tg.reason.isNone = false := by
      cases h : tg.reason
      · exact absurd h hr
      · rfl
    simp [hnone, hr]

/-- C2: gaps already tagged by the weekly pass are never re-tagged by the
holiday pass; the weekly pass tags a gap `weekend/closed-hours` exactly when
its `[start, end)` interval overlaps some weekly window under the
open-interval test; hence a gap overlapping both a weekly window and any
holiday window ends up tagged `weekend/closed-hours` in the pipeline. -/
theorem c2_weekend_precedence :
    (∀ (hwins : List (ℤ × ℤ)) (tagged : List TGap) (i : ℕ) (tg : TGap),
      tagged[i]? = some tg → tg.reason ≠ none →
      (holidayPass hwins tagged)[i]? = some tg) ∧
    (∀ (startTok endTok : String) (gaps : List Gap) (i : ℕ) (g : Gap),
      gaps[i]? = some g →
      (tagExplainable startTok endTok gaps)[i]? = some
        ⟨g.gapStart, g.gapEnd, g.deltaSec,
         if overlapsAny g.gapStart g.gapEnd
              (weeklyWinsOfGaps startTok endTok gaps) then some Reason.weekend
         else none⟩) ∧
    (∀ (hwins : List (ℤ × ℤ)) (startTok endTok : String) (gaps : List Gap)
       (i : ℕ) (g : Gap),
      gaps[i]? = some g →
      overlapsAny g.gapStart g.gapEnd (weeklyWinsOfGaps startTok endTok gaps)
        = true →
      (holidayPass hwins (tagExplainable startTok endTok gaps))[i]? = some
        ⟨g.gapStart, g.gapEnd, g.deltaSec, some Reason.weekend⟩) := by
  have htag : ∀ (startTok endTok : String) (gaps : List Gap) (i : ℕ) (g : Gap),
      gaps[i]? = some g →
      (tagExplainable startTok endTok gaps)[i]? = some
        ⟨g.gapStart, g.gapEnd, g.deltaSec,
         if overlapsAny g.gapStart g.gapEnd
              (weeklyWinsOfGaps startTok endTok gaps) then some Reason.weekend
         else none⟩ := by
    intro startTok endTok gaps i g hi
    unfold tagExplainable
    rw [List.getElem?_map, hi]
    rfl
  refine ⟨holidayPass_keeps_tagged, htag, ?_⟩
  intro hwins startTok endTok gaps i g hi hov
  have h1 := htag startTok endTok gaps i g hi
  rw [hov] at h1
  exact holidayPass_keeps_tagged hwins _ i _ (by simpa using h1) (by simp)

/-- Witness for `c2_weekend_precedence`: the gap 2021-12-25 10:00-12:00 UTC
lies inside the Saturday of the default weekly window AND inside the
Christmas 2021 holiday window; the pipeline tags it `weekend/closed-hours`. -/
theorem c2_weekend_precedence_witness :
    overlapsAny 1640426400 1640433600
      (fxHolidayWindows 2021 "minimal" [] false []) = true ∧
    (buildTagged 2021 "Fri 22:00" "Sun 22:00" "minimal" [] false []
      [⟨1640426400, 1640433600, 7200⟩])[0]? =
      some ⟨1640426400, 1640433600, 7200, some Reason.weekend⟩ :=
  ⟨by decide,
   c2_weekend_precedence.2.2 (fxHolidayWindows 2021 "minimal" [] false [])
     "Fri 22:00" "Sun 22:00" [⟨1640426400, 1640433600, 7200⟩] 0
     ⟨1640426400, 1640433600, 7200⟩ rfl (by decide)⟩

/-- C3 as stated is false: `build_common_blocks` computes the holiday windows
only for its single `year` argument, not for every year spanned by the
untagged gaps.  The gap 2024-12-25 06:00-12:00 UTC spans only 2024 and
overlaps the Christmas 2024 holiday window, yet under report year 2025 it
stays untagged. -/
theorem c3_counterexample :
    gapYears [⟨1735106400, 1735128000, 21600⟩] = [2024] ∧
    overlapsAny 1735106400 1735128000
      (fxHolidayWindows 2024 "minimal" [] false []) = true ∧
    (buildTagged 2025 "Fri 22:00" "Sun 22:00" "minimal" [] false []
      [⟨1735106400, 1735128000, 21600⟩]).map (fun g => g.reason) = [none] := by
  refine ⟨by decide, by decide, by decide⟩

/-- C3 amended: the holiday pass computes the holiday windows only for the
single report-year argument, and a gap left untagged by the weekly pass is
tagged `holiday` if and only if it overlaps one of that year's windows under
the open-interval test. -/
theorem c3_holiday_pass_single_year :
    ∀ (year : ℤ) (startTok endTok mode : String) (includeCfg : List String)
      (extended : Bool) (extra : List (ℤ × ℤ)) (gaps : List Gap) (i : ℕ)
      (tg : TGap),
      (tagExplainable startTok endTok gaps)[i]? = some tg →
      tg.reason = none →
      (buildTagged year startTok endTok mode includeCfg extended extra gaps)[i]?
        = some
        ⟨tg.gapStart, tg.gapEnd, tg.deltaSec,
         if overlapsAny tg.gapStart tg.gapEnd
              (fxHolidayWindows year mode includeCfg extended extra) then
           some Reason.holiday
         else none⟩ := by
  intro year startTok endTok mode includeCfg extended extra gaps i tg hi hr
  unfold buildTagged holidayPass
  by_cases he : (fxHolidayWindows year mode includeCfg extended extra).isEmpty
  · rw [if_pos he]
    have hwin : fxHolidayWindows year mode includeCfg extended extra = [] :=
      List.isEmpty_iff.mp he
    rw [hi, hwin]
    cases tg
    simp_all [overlapsAny]
  · rw [if_neg he, List.getElem?_map, hi]
    rcases tg with ⟨s, e, d, r⟩
    simp only at hr
    subst hr
    simp only [Option.map_some]
    by_cases hov : overlapsAny s e
        (fxHolidayWindows year mode includeCfg extended extra) = true
    · simp [hov]
    · simp [hov]

/-- Witness for `c3_holiday_pass_single_year`: the Christmas 2024 gap under
report year 2024 is tagged `holiday`. -/
theorem c3_holiday_pass_single_year_witness :
    (buildTagged 2024 "Fri 22:00" "Sun 22:00" "minimal" [] false []
      [⟨1735106400, 1735128000, 21600⟩])[0]? =
      some ⟨1735106400, 1735128000, 21600,
        if overlapsAny 1735106400 1735128000
             (fxHolidayWindows 2024 "minimal" [] false []) then
          some Reason.holiday
        else none⟩ :=
  c3_holiday_pass_single_year 2024 "Fri 22:00" "Sun 22:00" "minimal" [] false []
    [⟨1735106400, 1735128000, 21600⟩] 0 ⟨1735106400, 1735128000, 21600, none⟩
    (by decide) rfl

/- ===== Theorem for claim C5 ===== -/

/-- C5: the Easter algorithm returns the Gregorian Easter Sunday at the
reference years (2000 -> Apr 23, 2024 -> Mar 31, 2025 -> Apr 20), and for
every year the generated Good Friday window is the full UTC calendar day two
days before Easter while the Easter Monday window (present under the
extended policy) is the full UTC calendar day one day after Easter. -/
theorem c5_easter_dates_and_windows :
    easterMonthDay 2000 = (4, 23) ∧
    easterMonthDay 2024 = (3, 31) ∧
    easterMonthDay 2025 = (4, 20) ∧
    (∀ year : ℤ,
      fxHolidayWindows year "extended" [] false [] =
        [fullDayUTC (easterEpochDay year - 2),
         fullDayUTC (easterEpochDay year + 1),
         fullDayUTC (daysFromCivil year 1 1),
         fullDayUTC (daysFromCivil year 12 25),
         fullDayUTC (daysFromCivil year 12 26)]) ∧
    (∀ year : ℤ,
      fxHolidayWindows year "minimal" [] false [] =
        [fullDayUTC (easterEpochDay year - 2),
         fullDayUTC (daysFromCivil year 1 1),
         fullDayUTC (daysFromCivil year 12 25)]) ∧
    (∀ d : ℤ, fullDayUTC d = (86400 * d, 86400 * (d + 1))) :=
  ⟨by decide, by decide, by decide, fun _ => rfl, fun _ => rfl, fun _ => rfl⟩

/- ===== Calendar-coverage matcher (`sections.py` lines 53-90) ===== -/

/-- Event-vs-gap test of `_match_calendar_high`: timestamp `ts` falls into
`[gap_start - w, gap_end + w]` of some gap whose `reason` is `None`
(the anomalies subset used for coverage). -/
def matchesAnomalous (tagged : List TGap) (w ts : ℤ) : Bool :=
  tagged.any fun g =>
    g.reason.isNone && decide (g.gapStart - w ≤ ts) && decide (ts ≤ g.gapEnd + w)

/-- `matched_high_events`: the number of distinct event timestamps matched by
some anomalous gap (the source accumulates them in a Python `set`). -/
def matchedHighEvents (tagged : List TGap) (evs : List ℤ) (w : ℤ) : ℕ :=
  ((evs.filter (matchesAnomalous tagged w)).toFinset).card

/-- `coverage` of `_match_calendar_high`: `matched/total` on the anomalies
subset; `0.0` when the event list or the gap list is empty. -/
def coverageOf (tagged : List TGap) (evs : List ℤ) (w : ℤ) : ℚ :=
  if evs.isEmpty || tagged.isEmpty then 0
  else (matchedHighEvents tagged evs w : ℚ) / (evs.length : ℚ)

/-- Calendar target by timeframe (`_score_tf` line 368):
`{'M1':0.10, 'M5':0.20, 'H1':0.30}`. -/
def calTarget : TF → ℚ
  | .M1 => 1/10
  | .M5 => 1/5
  | .H1 => 3/10

/-- Calendar sub-score of `_score_tf` (lines 354-369): `100` when the
calendar is missing (`none`) or empty; otherwise the gaps are re-assigned
`reason = None` (`bar_gaps.assign(reason=...)`), matched with tolerance 60 s,
and the score is `100 * min(1, coverage/target)`. -/
def calendarScoreOf (tf : TF) (gaps : List Gap) (cal : Option (List ℤ)) : ℚ :=
  match cal with
  | none => 100
  | some evs =>
    if evs.isEmpty then 100
    else
      100 * min 1
        (coverageOf (gaps.map fun g => ⟨g.gapStart, g.gapEnd, g.deltaSec, none⟩)
            evs 60 / calTarget tf)

/- ===== Theorems for claims C8 and C9 ===== -/

lemma matchesAnomalous_eq_decide (tagged : List TGap) (w ts : ℤ) :
    matchesAnomalous tagged w ts =
      decide (∃ g ∈ tagged, g.reason = none ∧
        g.gapStart - w ≤ ts ∧ ts ≤ g.gapEnd + w) := by
  rw [Bool.eq_iff_iff]
  simp [matchesAnomalous, List.any_eq_true, Option.isNone_iff_eq_none,
    and_assoc]

/-- C8: with no calendar events available (missing or empty list) the
calendar sub-score is 100; otherwise it is `100·min(1, coverage/target)` with
target 0.10/0.20/0.30 for M1/M5/H1, where coverage is `matched/total` over
the distinct event timestamps falling (with 60 s tolerance) into some
anomalous gap, and coverage is 0 when the event or gap list is empty. -/
theorem c8_calendar_score :
    (∀ (tf : TF) (gaps : List Gap), calendarScoreOf tf gaps none = 100) ∧
    (∀ (tf : TF) (gaps : List Gap), calendarScoreOf tf gaps (some []) = 100) ∧
    (calTarget .M1 = 1/10 ∧ calTarget .M5 = 1/5 ∧ calTarget .H1 = 3/10) ∧
    (∀ (tf : TF) (gaps : List Gap) (evs : List ℤ), evs ≠ [] →
      calendarScoreOf tf gaps (some evs) =
        100 * min 1
          (coverageOf
              (gaps.map fun g => ⟨g.gapStart, g.gapEnd, g.deltaSec, none⟩)
              evs 60 / calTarget tf)) ∧
    (∀ (tagged : List TGap) (evs : List ℤ) (w : ℤ), evs ≠ [] → tagged ≠ [] →
      coverageOf tagged evs w =
        (matchedHighEvents tagged evs w : ℚ) / (evs.length : ℚ)) ∧
    (∀ (tagged : List TGap) (w : ℤ), coverageOf tagged [] w = 0) ∧
    (∀ (tagged : List TGap) (evs : List ℤ) (w : ℤ),
      matchedHighEvents tagged evs w =
        ((evs.filter fun ts => decide (∃ g ∈ tagged, g.reason = none ∧
            g.gapStart - w ≤ ts ∧ ts ≤ g.gapEnd + w)).toFinset).card) := by
  refine ⟨fun _ _ => rfl, fun _ _ => rfl, ⟨rfl, rfl, rfl⟩, ?_, ?_, ?_, ?_⟩
  · intro tf gaps evs hne
    have hemp : evs.isEmpty = false := by simpa using hne
    simp [calendarScoreOf, hemp]
  · intro tagged evs w hne hnt
    unfold coverageOf
    rw [if_neg]
    simp [hne, hnt]
  · intro tagged w
    rfl
  · intro tagged evs w
    unfold matchedHighEvents
    congr 1
    congr 1
    exact List.filter_congr fun ts _ => by rw [matchesAnomalous_eq_decide]

/-- Witness for `c8_calendar_score` at a concrete gap and event list. -/
theorem c8_calendar_score_witness :
    calendarScoreOf .M5 [⟨0, 600, 600⟩] (some [100]) =
      100 * min 1
        (coverageOf [⟨0, 600, 600, none⟩] [100] 60 / calTarget .M5) ∧
    coverageOf [⟨0, 600, 600, none⟩] [100] 60 =
      (matchedHighEvents [⟨0, 600, 600, none⟩] [100] 60 : ℚ) / 1 :=
  ⟨c8_calendar_score.2.2.2.1 .M5 [⟨0, 600, 600⟩] [100] (by decide),
   c8_calendar_score.2.2.2.2.1 [⟨0, 600, 600, none⟩] [100] 60 (by decide)
     (by decide)⟩

lemma matchedHighEvents_append_not_matching (tagged : List TGap)
    (evs : List ℤ) (w ts : ℤ)
    (h : matchesAnomalous tagged w ts = false) :
    matchedHighEvents tagged (evs ++ [ts]) w = matchedHighEvents tagged evs w := by
  unfold matchedHighEvents
  rw [List.filter_append]
  simp [List.filter, h]

/-- C9: adding an event timestamp lying (with tolerance) inside some existing
anomalous gap never decreases the coverage ratio, and adding an event
timestamp inside no gap's tolerance-extended interval leaves
`matched_high_events` unchanged.  (The fresh-timestamp hypothesis `ts ∉ evs`
reflects the data model: event lists arrive de-duplicated by timestamp.) -/
theorem c9_coverage_monotonic :
    (∀ (tagged : List TGap) (evs : List ℤ) (w ts : ℤ),
      ts ∉ evs →
      (∃ g ∈ tagged, g.reason = none ∧
        g.gapStart - w ≤ ts ∧ ts ≤ g.gapEnd + w) →
      coverageOf tagged evs w ≤ coverageOf tagged (evs ++ [ts]) w) ∧
    (∀ (tagged : List TGap) (evs : List ℤ) (w ts : ℤ),
      (∀ g ∈ tagged, ¬(g.gapStart - w ≤ ts ∧ ts ≤ g.gapEnd + w)) →
      matchedHighEvents tagged (evs ++ [ts]) w = matchedHighEvents tagged evs w) := by
  constructor
  · intro tagged evs w ts hfresh hmatch
    have htag : tagged ≠ [] := by
      obtain ⟨g, hg, -⟩ := hmatch
      exact List.ne_nil_of_mem hg
    have hts : matchesAnomalous tagged w ts = true := by
      rw [matchesAnomalous_eq_decide]
      exact decide_eq_true hmatch
    have hm' : matchedHighEvents tagged (evs ++ [ts]) w =
        matchedHighEvents tagged evs w + 1 := by
      unfold matchedHighEvents
      rw [List.filter_append]
      have : List.filter (matchesAnomalous tagged w) [ts] = [ts] := by
        simp [List.filter, hts]
      rw [this, List.toFinset_append]
      have hnot : ts ∉ (evs.filter (matchesAnomalous tagged w)).toFinset := by
        intro hmem
        exact hfresh (List.mem_of_mem_filter (List.mem_toFinset.mp hmem))
      have hsing : ([ts] : List ℤ).toFinset = {ts} := by simp
      rw [hsing, Finset.union_comm, ← Finset.insert_eq]
      exact Finset.card_insert_of_not_mem hnot
    have hmle : (matchedHighEvents tagged evs w : ℚ) ≤ (evs.length : ℚ) := by
      have h1 : matchedHighEvents tagged evs w ≤ evs.length :=
        le_trans (List.toFinset_card_le _) (List.length_filter_le _ _)
      exact_mod_cast h1
    rcases evs with _ | ⟨e0, erest⟩
    · unfold coverageOf
      simp only [List.nil_append, List.isEmpty_nil, Bool.true_or, if_pos]
      rw [if_neg (by simp [htag])]
      positivity
    · unfold coverageOf
      rw [if_neg (by simp [htag]), if_neg (by simp [htag])]
      rw [hm']
      set m : ℚ := (matchedHighEvents tagged (e0 :: erest) w : ℚ) with hm
      set t : ℚ := ((e0 :: erest).length : ℚ) with ht
      have htpos : 0 < t := by
        rw [ht]
        exact_mod_cast Nat.succ_pos _
      have hlen : (((e0 :: erest) ++ [ts]).length : ℚ) = t + 1 := by
        rw [ht]
        push_cast [List.length_append, List.length_cons, List.length_nil]
        ring
      rw [hlen]
      have hmnn : 0 ≤ m := by positivity
      rw [div_le_div_iff₀ htpos (by linarith)]
      push_cast
      nlinarith [hmle]
  · intro tagged evs w ts h
    apply matchedHighEvents_append_not_matching
    rw [matchesAnomalous_eq_decide]
    simp only [decide_eq_false_iff_not]
    rintro ⟨g, hg, -, h1, h2⟩
    exact h g hg ⟨h1, h2⟩

/-- Witness for `c9_coverage_monotonic` at concrete gaps and events. -/
theorem c9_coverage_monotonic_witness :
    coverageOf [⟨0, 600, 600, none⟩] [100] 60 ≤
      coverageOf [⟨0, 600, 600, none⟩] ([100] ++ [300]) 60 ∧
    matchedHighEvents [⟨0, 600, 600, none⟩] ([100] ++ [10000]) 60 =
      matchedHighEvents [⟨0, 600, 600, none⟩] [100] 60 :=
  ⟨c9_coverage_monotonic.1 [⟨0, 600, 600, none⟩] [100] 60 300 (by decide)
     ⟨⟨0, 600, 600, none⟩, by decide, rfl, by decide, by decide⟩,
   c9_coverage_monotonic.2 [⟨0, 600, 600, none⟩] [100] 60 10000 (by decide)⟩

/- ===== Scorecard engine (`sections.py` lines 277-389) ===== -/

/-- OHLCV bar with period-close timestamp (epoch seconds). -/
structure Bar where
  ts : ℤ
  op : ℚ
  high : ℚ
  low : ℚ
  close : ℚ
  volume : ℚ
deriving DecidableEq, Repr

/-- `_tf_params()["gap_buckets"][tf]["small_max_s"]`. -/
def tfSmallMax : TF → ℤ
  | .M1 => 300
  | .M5 => 1800
  | .H1 => 21600

/-- `_tf_params()["gap_buckets"][tf]["long_min_s"]`. -/
def tfLongMin : TF → ℤ
  | .M1 => 3600
  | .M5 => 10800
  | .H1 => 86400

/-- Per-timeframe component weights (`_tf_params()["weights"]`). -/
structure Weights where
  gapMix : ℚ
  hotspots : ℚ
  extremes : ℚ
  monthly : ℚ
  sessions : ℚ
  calendar : ℚ
  completeness : ℚ
deriving DecidableEq, Repr

/-- `_tf_params()["weights"][tf]` (0.30 = 3/10 etc.). -/
def tfWeights : TF → Weights
  | .M1 => ⟨3/10, 2/10, 15/100, 15/100, 1/10, 5/100, 5/100⟩
  | .M5 => ⟨25/100, 2/10, 15/100, 15/100, 1/10, 5/100, 1/10⟩
  | .H1 => ⟨2/10, 15/100, 15/100, 15/100, 1/10, 5/100, 2/10⟩

/-- Per-timeframe targets (`_tf_params()["targets"]`). -/
structure Targets where
  smallShare : ℚ
  longShare : ℚ
  extremeRatePerK : ℚ
  monthlyCv : ℚ
  sessionOther : ℚ
  longestGapHoursOk : ℚ
deriving DecidableEq, Repr

/-- `_tf_params()["targets"][tf]`. -/
def tfTargets : TF → Targets
  | .M1 => ⟨4/10, 2/10, 1/2, 1, 1/10, 24⟩
  | .M5 => ⟨5/10, 15/100, 1, 1, 1/10, 24⟩
  | .H1 => ⟨6/10, 1/10, 1, 1, 1/10, 24⟩

/-- Pandas `.mean()` of a boolean series over a list: the fraction of
elements satisfying `p` (`0` on the empty list, matching the source's
`N > 0` guards). -/
def boolShare (p : α → Bool) (l : List α) : ℚ :=
  if l.isEmpty then 0 else (l.countP p : ℚ) / (l.length : ℚ)

/-- `gap_mix` sub-score (`_score_tf` lines 299-310): shares of anomalous gaps
in the small bucket (nominal < Δ ≤ small_max) and the long bucket
(Δ > long_min), clamped against targets, combined 60/40. -/
def gapMixScore (tf : TF) (gaps : List Gap) : ℚ :=
  let pSmall := boolShare
    (fun g => decide (nominalSec tf < g.deltaSec) &&
              decide (g.deltaSec ≤ tfSmallMax tf)) gaps
  let pLong := boolShare (fun g => decide (tfLongMin tf < g.deltaSec)) gaps
  let compSmall := min 1 (pSmall / (tfTargets tf).smallShare)
  let compLong := max 0 (1 - min 1 (pLong / (tfTargets tf).longShare))
  100 * (6/10 * compSmall + 4/10 * compLong)

/-- The `(weekday, hour)` cell of a gap start (`_score_tf` line 313). -/
def gapCell (g : Gap) : ℤ × ℤ := (weekdayOfSec g.gapStart, hourOfSec g.gapStart)

/-- Occurrence count of a cell among the gap cells: the `groupby` sizes of
`_score_tf` line 313 (spelled with the `DecidableEq`-derived `BEq`
instance). -/
def cellCount (keys : List (ℤ × ℤ)) (x : ℤ × ℤ) : ℕ :=
  @List.count (ℤ × ℤ) instBEqOfDecidableEq x keys

/-- `hotspots` sub-score (`_score_tf` lines 312-319): collision (Simpson)
index `H = Σ p²` over occupied `(weekday, hour)` cells, normalized by
`(H - 1/C)/(1 - 1/C)` for `C > 1` occupied cells (`1` otherwise), scored
`100·(1 - normH)`; `100` when there are no gaps. -/
def hotspotsScore (gaps : List Gap) : ℚ :=
  if gaps.isEmpty then 100
  else
    let keys := gaps.map gapCell
    let C : ℕ := keys.toFinset.card
    let H : ℚ := ∑ x ∈ keys.toFinset,
      ((cellCount keys x : ℚ) / (keys.length : ℚ)) ^ 2
    let normH := if 1 < C then (H - 1 / (C : ℚ)) / (1 - 1 / (C : ℚ)) else 1
    100 * (1 - normH)

/-- Insert into an ascending rational list (ascending insertion sort step). -/
def insertAscQ (x : ℚ) : List ℚ → List ℚ
  | [] => [x]
  | y :: ys => if x ≤ y then x :: y :: ys else y :: insertAscQ x ys

/-- Ascending sort of a rational list (pandas sorts values for `quantile`). -/
def sortAscQ (l : List ℚ) : List ℚ := l.foldr insertAscQ []

/-- Pandas `Series.quantile(0.99)` with the default linear interpolation:
position `0.99·(n-1)` between the sorted order statistics. -/
def quantile99 (xs : List ℚ) : ℚ :=
  let s := sortAscQ xs
  let n := s.length
  let pos : ℚ := 99 / 100 * ((n : ℚ) - 1)
  let i : ℕ := pos.floor.toNat
  let vi := s.getD i 0
  let vi1 := s.getD (i + 1) vi
  vi + (pos - (i : ℚ)) * (vi1 - vi)

/-- Bar ranges `|high - low|` (`_score_tf` line 322). -/
def rangesOf (bars : List Bar) : List ℚ := bars.map fun b => |b.high - b.low|

/-- `extremes` sub-score (`_score_tf` lines 321-327): count bars whose range
strictly exceeds `5·p99(range)` (only when `p99 > 0`, else `0`), convert to a
rate per `10000` bars for M1 and per `1000` bars otherwise, and score
`100·(1 - min(1, rate/target))`; the rate is `0` when there are no bars. -/
def extremesScore (tf : TF) (bars : List Bar) : ℚ :=
  let ranges := rangesOf bars
  let p99r := if bars.isEmpty then 0 else quantile99 ranges
  let ext : ℕ := if 0 < p99r then ranges.countP (fun r => decide (5 * p99r < r))
                 else 0
  let perK : ℚ := if tf = .M1 then 10000 else 1000
  let rate : ℚ := if bars.isEmpty then 0
                  else (ext : ℚ) / ((bars.length : ℚ) / perK)
  100 * (1 - min 1 (rate / (tfTargets tf).extremeRatePerK))

/-- `monthly` sub-score (`_score_tf` lines 329-340).  The source computes
`cv = monthly.std(ddof=0)/monthly.mean()` over per-month anomalous-gap
counts; the standard deviation is a floating-point square root, irrational in
general, so the coefficient of variation enters the embedding as the
parameter `cv` (nonnegative, being a quotient of a nonnegative standard
deviation by a positive mean; the source's `mu > 0` guard and the empty-bars
branch both yield `cv = 0`, the latter kept explicit here). -/
def monthlyScore (tf : TF) (bars : List Bar) (cv : ℚ) : ℚ :=
  let cvEff := if bars.isEmpty then 0 else cv
  100 * (1 - min 1 (cvEff / (tfTargets tf).monthlyCv))

/-- `_sess` (`_score_tf` lines 342-350): session label of a gap-start time of
day, with overlaps labelled distinctly and `"Other"` for none. -/
def sessLabel (ts : ℤ) : String :=
  let h : ℚ := (hourOfSec ts : ℚ) + (minuteOfSec ts : ℚ) / 60
  let asia := 0 ≤ h ∧ h < 8
  let london := 7 ≤ h ∧ h < 16
  let ny := 12 ≤ h ∧ h < 21
  if asia ∧ london then "Asia-London overlap"
  else if london ∧ ny then "London-NY overlap"
  else if ny then "NY"
  else if london then "London"
  else if asia then "Asia"
  else "Other"

/-- `sessions` sub-score (`_score_tf` lines 351-352): share of anomalous gaps
whose start is in the `"Other"` session bucket, against the target. -/
def sessionsScore (tf : TF) (gaps : List Gap) : ℚ :=
  let shareOther := boolShare (fun g => sessLabel g.gapStart = "Other") gaps
  100 * (1 - min 1 (shareOther / (tfTargets tf).sessionOther))

/-- `completeness` sub-score (`_score_tf` lines 371-372): longest anomalous
gap in hours against `longest_gap_hours_ok` (`0` hours with no gaps). -/
def completenessScore (tf : TF) (gaps : List Gap) : ℚ :=
  let longestH : ℚ :=
    if gaps.isEmpty then 0
    else (((gaps.map fun g => g.deltaSec).max?.getD 0 : ℤ) : ℚ) / 3600
  100 * (1 - min 1 (longestH / (tfTargets tf).longestGapHoursOk))

/-- The seven components and the weighted total of `_score_tf`. -/
structure TfScores where
  gapMix : ℚ
  hotspots : ℚ
  extremes : ℚ
  monthly : ℚ
  sessions : ℚ
  calendar : ℚ
  completeness : ℚ
  total : ℚ
deriving DecidableEq, Repr

/-- `_score_tf` (`sections.py` lines 296-389): the seven sub-scores combined
by the per-timeframe weights (lines 374-376).  `gaps` is the anomalous gap
set the caller passes in (`filtered` in `build_common_blocks`); `cal` is the
high-impact event list of the loaded calendar file (`none` when the file is
missing); `cv` is the monthly coefficient of variation (see
`monthlyScore`). -/
def scoreTF (tf : TF) (bars : List Bar) (gaps : List Gap)
    (cal : Option (List ℤ)) (cv : ℚ) : TfScores :=
  let W := tfWeights tf
  let g := gapMixScore tf gaps
  let h := hotspotsScore gaps
  let e := extremesScore tf bars
  let m := monthlyScore tf bars cv
  let s := sessionsScore tf gaps
  let c := calendarScoreOf tf gaps cal
  let cp := completenessScore tf gaps
  ⟨g, h, e, m, s, c, cp,
   W.gapMix * g + W.hotspots * h + W.extremes * e + W.monthly * m +
     W.sessions * s + W.calendar * c + W.completeness * cp⟩

/- ===== Theorems for claim C6 ===== -/

/-- Written from claim C6's words, for comparison with the source-derived
`extremesScore`: outliers are the bars with range strictly above `5×p99`
(with neutral degradation when the 99th-percentile range or the bar count is
zero), the count is converted to a rate per 1,000 bars for H1 and per 10,000
bars for BOTH M1 and M5, and the score is `100·(1 − min(1, rate/target))`. -/
def extremesSpecScore (tf : TF) (bars : List Bar) : ℚ :=
  let ranges := rangesOf bars
  let p99r := if bars.isEmpty then 0 else quantile99 ranges
  let n := bars.length
  if n = 0 ∨ ¬0 < p99r then 100
  else
    let outliers := (ranges.filter fun r => decide (5 * p99r < r)).length
    let perK : ℚ := if tf = .H1 then 1000 else 10000
    100 * (1 - min 1 ((outliers : ℚ) * perK / (n : ℚ) /
      (tfTargets tf).extremeRatePerK))

/-- Written from the amended claim C6: same as `extremesSpecScore` but with
the source's rate basis — per 10,000 bars for M1 and per 1,000 bars for M5
and H1. -/
def extremesSpecAmended (tf : TF) (bars : List Bar) : ℚ :=
  let ranges := rangesOf bars
  let p99r := if bars.isEmpty then 0 else quantile99 ranges
  let n := bars.length
  if n = 0 ∨ ¬0 < p99r then 100
  else
    let outliers := (ranges.filter fun r => decide (5 * p99r < r)).length
    let perK : ℚ := if tf = .M1 then 10000 else 1000
    100 * (1 - min 1 ((outliers : ℚ) * perK / (n : ℚ) /
      (tfTargets tf).extremeRatePerK))

set_option maxRecDepth 1000000 in
set_option maxHeartbeats 4000000 in
unseal Rat.mul Rat.add Rat.sub Rat.inv in
/-- C6 as stated is false for M5: the source uses
`per_k = 10000 if tf == "M1" else 1000`, i.e. a rate per 1,000 bars for M5,
not per 10,000.  On 1002 bars with one extreme range the M5 extremes
sub-score is `100/501`, while the claimed per-10,000 formula clamps to 0. -/
theorem c6_counterexample :
    extremesScore .M5
        (List.replicate 1001 (⟨0, 0, 1, 0, 0, 0⟩ : Bar) ++ [⟨0, 0, 1000, 0, 0, 0⟩])
      = 100 / 501 ∧
    extremesSpecScore .M5
        (List.replicate 1001 (⟨0, 0, 1, 0, 0, 0⟩ : Bar) ++ [⟨0, 0, 1000, 0, 0, 0⟩])
      = 0 ∧
    extremesScore .M5
        (List.replicate 1001 (⟨0, 0, 1, 0, 0, 0⟩ : Bar) ++ [⟨0, 0, 1000, 0, 0, 0⟩])
      ≠ extremesSpecScore .M5
        (List.replicate 1001 (⟨0, 0, 1, 0, 0, 0⟩ : Bar) ++ [⟨0, 0, 1000, 0, 0, 0⟩]) := by
  refine ⟨by decide, by decide, by decide⟩

unseal Rat.mul Rat.add Rat.sub Rat.inv in
/-- C6 amended: the extremes sub-score counts as outliers exactly the bars
whose range strictly exceeds `5×p99(range)` when `p99 > 0` (zero outliers
otherwise), converts the count to a rate per 10,000 bars for M1 and per
1,000 bars for M5 and H1, scores `100·(1 − min(1, rate/target))`, and
degrades to the neutral 100 when the 99th-percentile range or the bar count
is zero. -/
theorem c6_extremes_characterization :
    ∀ (tf : TF) (bars : List Bar),
      extremesScore tf bars = extremesSpecAmended tf bars := by
  intro tf bars
  rcases bars with _ | ⟨b0, brest⟩
  · cases tf <;> decide
  · unfold extremesScore extremesSpecAmended
    simp only [List.isEmpty_cons, Bool.false_eq_true, if_false]
    by_cases hp : 0 < quantile99 (rangesOf (b0 :: brest))
    · have hcond : ¬((b0 :: brest).length = 0 ∨
          ¬0 < quantile99 (rangesOf (b0 :: brest))) := by
        push_neg
        exact ⟨by simp, hp⟩
      rw [if_pos hp, if_neg hcond, List.countP_eq_length_filter,
        div_div_eq_mul_div]
    · rw [if_neg hp, if_pos (Or.inr hp)]
      norm_num

/- ===== Bounds of the scorecard components (towards claim C4) ===== -/

lemma min01 {x : ℚ} (hx : 0 ≤ x) : 0 ≤ min 1 x ∧ min 1 x ≤ 1 :=
  ⟨le_min (by norm_num) hx, min_le_left _ _⟩

lemma score100_bounds {x : ℚ} (hx : 0 ≤ x) :
    0 ≤ 100 * (1 - min 1 x) ∧ 100 * (1 - min 1 x) ≤ 100 := by
  obtain ⟨h0, h1⟩ := min01 hx
  constructor <;> nlinarith

lemma boolShare_bounds (p : α → Bool) (l : List α) :
    0 ≤ boolShare p l ∧ boolShare p l ≤ 1 := by
  unfold boolShare
  split
  · norm_num
  · rename_i hne
    have hlen : 0 < l.length := by
      cases l
      · simp at hne
      · simp
    have hlenQ : (0 : ℚ) < l.length := by exact_mod_cast hlen
    constructor
    · positivity
    · rw [div_le_one hlenQ]
      exact_mod_cast List.countP_le_length p

lemma tfTargets_pos (tf : TF) :
    0 < (tfTargets tf).smallShare ∧ 0 < (tfTargets tf).longShare ∧
    0 < (tfTargets tf).extremeRatePerK ∧ 0 < (tfTargets tf).monthlyCv ∧
    0 < (tfTargets tf).sessionOther ∧ 0 < (tfTargets tf).longestGapHoursOk := by
  cases tf <;> refine ⟨?_, ?_, ?_, ?_, ?_, ?_⟩ <;> norm_num [tfTargets]

lemma gapMix_combination {cs cl : ℚ} (h1 : 0 ≤ cs) (h2 : cs ≤ 1) (h3 : 0 ≤ cl)
    (h4 : cl ≤ 1) :
    0 ≤ 100 * (6/10 * cs + 4/10 * cl) ∧ 100 * (6/10 * cs + 4/10 * cl) ≤ 100 := by
  constructor <;> nlinarith

lemma gapMixScore_bounds (tf : TF) (gaps : List Gap) :
    0 ≤ gapMixScore tf gaps ∧ gapMixScore tf gaps ≤ 100 := by
  obtain ⟨hts, htl, -, -, -, -⟩ := tfTargets_pos tf
  simp only [gapMixScore]
  refine gapMix_combination ?_ ?_ ?_ ?_
  · exact (min01 (div_nonneg (boolShare_bounds _ _).1 hts.le)).1
  · exact (min01 (div_nonneg (boolShare_bounds _ _).1 hts.le)).2
  · exact le_max_left _ _
  · refine max_le (by norm_num) ?_
    have h := (min01 (div_nonneg (boolShare_bounds
      (fun g => decide (tfLongMin tf < g.deltaSec)) gaps).1 htl.le)).1
    linarith

lemma extremesScore_bounds (tf : TF) (bars : List Bar) :
    0 ≤ extremesScore tf bars ∧ extremesScore tf bars ≤ 100 := by
  obtain ⟨-, -, het, -, -, -⟩ := tfTargets_pos tf
  have hperK : (0 : ℚ) < (if tf = .M1 then 10000 else 1000) := by
    split <;> norm_num
  simp only [extremesScore]
  refine score100_bounds (div_nonneg ?_ het.le)
  split
  · exact le_rfl
  · exact div_nonneg (Nat.cast_nonneg _)
      (div_nonneg (Nat.cast_nonneg _) hperK.le)

lemma monthlyScore_bounds (tf : TF) (bars : List Bar) {cv : ℚ} (hcv : 0 ≤ cv) :
    0 ≤ monthlyScore tf bars cv ∧ monthlyScore tf bars cv ≤ 100 := by
  obtain ⟨-, -, -, hmt, -, -⟩ := tfTargets_pos tf
  simp only [monthlyScore]
  refine score100_bounds (div_nonneg ?_ hmt.le)
  split
  · exact le_rfl
  · exact hcv

lemma sessionsScore_bounds (tf : TF) (gaps : List Gap) :
    0 ≤ sessionsScore tf gaps ∧ sessionsScore tf gaps ≤ 100 := by
  obtain ⟨-, -, -, -, hst, -⟩ := tfTargets_pos tf
  simp only [sessionsScore]
  exact score100_bounds (div_nonneg (boolShare_bounds _ _).1 hst.le)

lemma completenessScore_bounds (tf : TF) (gaps : List Gap)
    (hd : ∀ g ∈ gaps, 0 ≤ g.deltaSec) :
    0 ≤ completenessScore tf gaps ∧ completenessScore tf gaps ≤ 100 := by
  obtain ⟨-, -, -, -, -, hlt⟩ := tfTargets_pos tf
  simp only [completenessScore]
  refine score100_bounds (div_nonneg ?_ hlt.le)
  split
  · exact le_rfl
  · rename_i hne
    have hgne : gaps ≠ [] := by simpa using hne
    have hmne : (gaps.map fun g => g.deltaSec) ≠ [] := by simpa using hgne
    rcases hm : (gaps.map fun g => g.deltaSec).max? with _ | m
    · exact absurd (List.max?_eq_none_iff.mp hm) hmne
    · have hmem : m ∈ gaps.map fun g => g.deltaSec :=
        List.max?_mem max_choice hm
      obtain ⟨g, hg, hgm⟩ := List.mem_map.mp hmem
      have h0m : (0 : ℤ) ≤ m := hgm ▸ hd g hg
      rw [hm, Option.getD_some]
      positivity
lemma coverageOf_bounds (tagged : List TGap) (evs : List ℤ) (w : ℤ) :
    0 ≤ coverageOf tagged evs w ∧ coverageOf tagged evs w ≤ 1 := by
  unfold coverageOf
  split
  · norm_num
  · rename_i hne
    have hevs : ¬evs.isEmpty := by
      intro h
      simp [h] at hne
    have hlen : 0 < evs.length := by
      cases evs
      · simp at hevs
      · simp
    have hlenQ : (0 : ℚ) < evs.length := by exact_mod_cast hlen
    constructor
    · positivity
    · rw [div_le_one hlenQ]
      have h1 : matchedHighEvents tagged evs w ≤ evs.length :=
        le_trans (List.toFinset_card_le _) (List.length_filter_le _ _)
      exact_mod_cast h1

lemma calendarScoreOf_bounds (tf : TF) (gaps : List Gap)
    (cal : Option (List ℤ)) :
    0 ≤ calendarScoreOf tf gaps cal ∧ calendarScoreOf tf gaps cal ≤ 100 := by
  have htgt : 0 < calTarget tf := by cases tf <;> norm_num [calTarget]
  rcases cal with _ | evs
  · constructor <;> norm_num [calendarScoreOf]
  · by_cases he : evs.isEmpty
    · constructor <;> norm_num [calendarScoreOf, he]
    · have hred : calendarScoreOf tf gaps (some evs) =
          100 * min 1 (coverageOf
            (gaps.map fun g => ⟨g.gapStart, g.gapEnd, g.deltaSec, none⟩)
            evs 60 / calTarget tf) := by
        simp [calendarScoreOf, he]
      rw [hred]
      obtain ⟨hc0, -⟩ := coverageOf_bounds
        (gaps.map fun g => ⟨g.gapStart, g.gapEnd, g.deltaSec, none⟩) evs 60
      obtain ⟨h0, h1⟩ := min01 (div_nonneg hc0 htgt.le)
      constructor <;> nlinarith

lemma simpson_norm_bounds (keys : List (ℤ × ℤ)) (hkne : keys ≠ []) :
    0 ≤ 100 * (1 - (if 1 < keys.toFinset.card then
        ((∑ x ∈ keys.toFinset,
            ((cellCount keys x : ℚ) / (keys.length : ℚ)) ^ 2) -
          1 / (keys.toFinset.card : ℚ)) /
          (1 - 1 / (keys.toFinset.card : ℚ))
      else 1)) ∧
    100 * (1 - (if 1 < keys.toFinset.card then
        ((∑ x ∈ keys.toFinset,
            ((cellCount keys x : ℚ) / (keys.length : ℚ)) ^ 2) -
          1 / (keys.toFinset.card : ℚ)) /
          (1 - 1 / (keys.toFinset.card : ℚ))
      else 1)) ≤ 100 := by
  have htpos : 0 < keys.length := List.length_pos.mpr hkne
  have hTpos : (0 : ℚ) < (keys.length : ℚ) := by exact_mod_cast htpos
  by_cases hC1 : 1 < keys.toFinset.card
  · have hCQ : (0 : ℚ) < (keys.toFinset.card : ℚ) := by
      have : 0 < keys.toFinset.card := Nat.lt_of_lt_of_le Nat.zero_lt_one hC1.le
      exact_mod_cast this
    have hsumNat : ∑ x ∈ keys.toFinset, cellCount keys x = keys.length := by
      simp [cellCount, List.sum_toFinset_count_eq_length keys]
    have hsum : ∑ x ∈ keys.toFinset, ((cellCount keys x : ℚ)) =
        (keys.length : ℚ) := by
      rw [← Nat.cast_sum, hsumNat]
    have hsum_p : ∑ x ∈ keys.toFinset,
        ((cellCount keys x : ℚ) / (keys.length : ℚ)) = 1 := by
      rw [← Finset.sum_div, hsum, div_self (ne_of_gt hTpos)]
    have hH1 : (∑ x ∈ keys.toFinset,
        ((cellCount keys x : ℚ) / (keys.length : ℚ)) ^ 2) ≤ 1 := by
      rw [← hsum_p]
      apply Finset.sum_le_sum
      intro x hx
      have hp0 : 0 ≤ (cellCount keys x : ℚ) / (keys.length : ℚ) := by positivity
      have hp1 : (cellCount keys x : ℚ) / (keys.length : ℚ) ≤ 1 := by
        rw [div_le_one hTpos]
        exact_mod_cast @List.count_le_length (ℤ × ℤ) instBEqOfDecidableEq x keys
      nlinarith
    have hcs : (∑ x ∈ keys.toFinset,
          ((cellCount keys x : ℚ) / (keys.length : ℚ))) ^ 2 ≤
        (keys.toFinset.card : ℚ) * ∑ x ∈ keys.toFinset,
          ((cellCount keys x : ℚ) / (keys.length : ℚ)) ^ 2 :=
      sq_sum_le_card_mul_sum_sq
    rw [hsum_p, one_pow] at hcs
    have hinv : 1 / (keys.toFinset.card : ℚ) < 1 := by
      rw [div_lt_one hCQ]
      exact_mod_cast hC1
    have hd : 0 < 1 - 1 / (keys.toFinset.card : ℚ) := by linarith
    have hnum0 : 0 ≤ (∑ x ∈ keys.toFinset,
        ((cellCount keys x : ℚ) / (keys.length : ℚ)) ^ 2) -
          1 / (keys.toFinset.card : ℚ) := by
      have hge : 1 / (keys.toFinset.card : ℚ) ≤ ∑ x ∈ keys.toFinset,
          ((cellCount keys x : ℚ) / (keys.length : ℚ)) ^ 2 := by
        rw [div_le_iff₀ hCQ]
        linarith
      linarith
    have hnorm0 : 0 ≤ ((∑ x ∈ keys.toFinset,
        ((cellCount keys x : ℚ) / (keys.length : ℚ)) ^ 2) -
          1 / (keys.toFinset.card : ℚ)) /
          (1 - 1 / (keys.toFinset.card : ℚ)) := div_nonneg hnum0 hd.le
    have hnorm1 : ((∑ x ∈ keys.toFinset,
        ((cellCount keys x : ℚ) / (keys.length : ℚ)) ^ 2) -
          1 / (keys.toFinset.card : ℚ)) /
          (1 - 1 / (keys.toFinset.card : ℚ)) ≤ 1 := by
      rw [div_le_one hd]
      linarith
    rw [if_pos hC1]
    constructor <;> nlinarith
  · rw [if_neg hC1]
    norm_num

lemma hotspotsScore_bounds (gaps : List Gap) :
    0 ≤ hotspotsScore gaps ∧ hotspotsScore gaps ≤ 100 := by
  by_cases hg : gaps.isEmpty
  · constructor <;> norm_num [hotspotsScore, hg]
  · have hgne : gaps ≠ [] := by simpa using hg
    have hkne : gaps.map gapCell ≠ [] := by simpa using hgne
    have hred : hotspotsScore gaps =
        100 * (1 - (if 1 < (gaps.map gapCell).toFinset.card then
          ((∑ x ∈ (gaps.map gapCell).toFinset,
              ((cellCount (gaps.map gapCell) x : ℚ) /
                ((gaps.map gapCell).length : ℚ)) ^ 2) -
            1 / ((gaps.map gapCell).toFinset.card : ℚ)) /
            (1 - 1 / ((gaps.map gapCell).toFinset.card : ℚ))
        else 1)) := by
      simp only [hotspotsScore, hg, Bool.false_eq_true, if_false]
    rw [hred]
    exact simpson_norm_bounds (gaps.map gapCell) hkne

/-- C4: for every timeframe, bar series, anomalous-gap set (with the
nonnegative gap lengths the pipeline guarantees), calendar input, and
nonnegative monthly coefficient of variation, each of the seven sub-scores
lies in [0,100], the per-timeframe weight vector sums to 1, and the weighted
total lies in [0,100]. -/
theorem c4_scorecard_bounds (tf : TF) (bars : List Bar) (gaps : List Gap)
    (cal : Option (List ℤ)) (cv : ℚ) (hcv : 0 ≤ cv)
    (hd : ∀ g ∈ gaps, 0 ≤ g.deltaSec) :
    (0 ≤ (scoreTF tf bars gaps cal cv).gapMix ∧
      (scoreTF tf bars gaps cal cv).gapMix ≤ 100) ∧
    (0 ≤ (scoreTF tf bars gaps cal cv).hotspots ∧
      (scoreTF tf bars gaps cal cv).hotspots ≤ 100) ∧
    (0 ≤ (scoreTF tf bars gaps cal cv).extremes ∧
      (scoreTF tf bars gaps cal cv).extremes ≤ 100) ∧
    (0 ≤ (scoreTF tf bars gaps cal cv).monthly ∧
      (scoreTF tf bars gaps cal cv).monthly ≤ 100) ∧
    (0 ≤ (scoreTF tf bars gaps cal cv).sessions ∧
      (scoreTF tf bars gaps cal cv).sessions ≤ 100) ∧
    (0 ≤ (scoreTF tf bars gaps cal cv).calendar ∧
      (scoreTF tf bars gaps cal cv).calendar ≤ 100) ∧
    (0 ≤ (scoreTF tf bars gaps cal cv).completeness ∧
      (scoreTF tf bars gaps cal cv).completeness ≤ 100) ∧
    ((tfWeights tf).gapMix + (tfWeights tf).hotspots + (tfWeights tf).extremes +
      (tfWeights tf).monthly + (tfWeights tf).sessions +
      (tfWeights tf).calendar + (tfWeights tf).completeness = 1) ∧
    (0 ≤ (scoreTF tf bars gaps cal cv).total ∧
      (scoreTF tf bars gaps cal cv).total ≤ 100) := by
  have e1 : (scoreTF tf bars gaps cal cv).gapMix = gapMixScore tf gaps := rfl
  have e2 : (scoreTF tf bars gaps cal cv).hotspots = hotspotsScore gaps := rfl
  have e3 : (scoreTF tf bars gaps cal cv).extremes = extremesScore tf bars := rfl
  have e4 : (scoreTF tf bars gaps cal cv).monthly = monthlyScore tf bars cv := rfl
  have e5 : (scoreTF tf bars gaps cal cv).sessions = sessionsScore tf gaps := rfl
  have e6 : (scoreTF tf bars gaps cal cv).calendar =
    calendarScoreOf tf gaps cal := rfl
  have e7 : (scoreTF tf bars gaps cal cv).completeness =
    completenessScore tf gaps := rfl
  have etot : (scoreTF tf bars gaps cal cv).total =
      (tfWeights tf).gapMix * gapMixScore tf gaps +
      (tfWeights tf).hotspots * hotspotsScore gaps +
      (tfWeights tf).extremes * extremesScore tf bars +
      (tfWeights tf).monthly * monthlyScore tf bars cv +
      (tfWeights tf).sessions * sessionsScore tf gaps +
      (tfWeights tf).calendar * calendarScoreOf tf gaps cal +
      (tfWeights tf).completeness * completenessScore tf gaps := rfl
  obtain ⟨h1a, h1b⟩ := gapMixScore_bounds tf gaps
  obtain ⟨h2a, h2b⟩ := hotspotsScore_bounds gaps
  obtain ⟨h3a, h3b⟩ := extremesScore_bounds tf bars
  obtain ⟨h4a, h4b⟩ := monthlyScore_bounds tf bars hcv
  obtain ⟨h5a, h5b⟩ := sessionsScore_bounds tf gaps
  obtain ⟨h6a, h6b⟩ := calendarScoreOf_bounds tf gaps cal
  obtain ⟨h7a, h7b⟩ := completenessScore_bounds tf gaps hd
  refine ⟨⟨e1 ▸ h1a, e1 ▸ h1b⟩, ⟨e2 ▸ h2a, e2 ▸ h2b⟩, ⟨e3 ▸ h3a, e3 ▸ h3b⟩,
    ⟨e4 ▸ h4a, e4 ▸ h4b⟩, ⟨e5 ▸ h5a, e5 ▸ h5b⟩, ⟨e6 ▸ h6a, e6 ▸ h6b⟩,
    ⟨e7 ▸ h7a, e7 ▸ h7b⟩, ?_, ?_⟩
  · cases tf <;> norm_num [tfWeights]
  · rw [etot]
    cases tf <;> simp only [tfWeights] <;> constructor <;> linarith

/-- Witness for `c4_scorecard_bounds` at a concrete invocation. -/
theorem c4_scorecard_bounds_witness :
    0 ≤ (scoreTF .M5 [⟨0, 0, 1, 0, 0, 0⟩] [⟨0, 600, 600⟩]
      (some [100]) 0).total ∧
    (scoreTF .M5 [⟨0, 0, 1, 0, 0, 0⟩] [⟨0, 600, 600⟩]
      (some [100]) 0).total ≤ 100 :=
  (c4_scorecard_bounds .M5 [⟨0, 0, 1, 0, 0, 0⟩] [⟨0, 600, 600⟩]
    (some [100]) 0 le_rfl (by decide)).2.2.2.2.2.2.2.2

end MDA
